import Mathlib

/-!
# Verification of the `indexlib` index engine (src/indexlib/index.py)

A shallow embedding of the in-memory entity tree, the category table and the
register / unregister / delete / serialize operations of `index.py`, together
with theorems settling the frozen claims about the specification.

Modelling conventions:
* A filesystem path (`pathlib.Path`) is a list of path components (`FPath`).
  `Path.relative_to` succeeds exactly when the base is a component prefix,
  so `is_subpath_to` is "strict prefix of the component list".
* Python objects have identity; object identity is modelled by a numeric `id`
  stamped on every entity at creation (`Index.nextId` is the allocator).
  `list.remove(obj)` on entity lists removes the first element with the same
  `id` (the Python classes define no `__eq__`, so `remove` compares identity).
* A `DirectoryEntity.childs` list is the mutually inductive `EntList` (rather
  than `List Ent`) so that every tree traversal is a structural mutual
  recursion; `EntList.toList` mediates to ordinary lists in statements.
* A `Category.members` entry aliases a live entity object, but the only
  fields the code ever reads through that alias are `path`, `category` and
  (via `unregister_self`) `parent`; `path` and `category` are immutable after
  construction, so a member is modelled as an immutable `MemRef` record of
  `(id, path, category)`, and the `parent` pointer is recovered from the
  `parentId` stored on the entity in the tree.
* Exceptions are modelled with `Except Err`.  For each modelled operation the
  Python source raises before performing any mutation on the code paths the
  claims exercise, so an `Except.error` result with the input state unchanged
  is faithful.
* The real filesystem is a finite tree (`FSNode`); `iterdir` order is the
  entry-list order.  The deletion family recurses simultaneously through the
  filesystem and the tracked tree and is written with an explicit fuel
  parameter; `Err.fuel` never occurs for sufficient fuel.
-/

set_option maxHeartbeats 1600000

namespace Indexlib

/-- An absolute filesystem path, as its list of components. -/
abbrev FPath := List String

/-- `is_subpath_to(path, to)` from `index.py`: `path.relative_to(to)` succeeds
exactly when `to` is a component prefix of `path`, and equal paths are
explicitly rejected first. -/
def is_subpath_to (path base : FPath) : Bool :=
  !(path == base) && base.isPrefixOf path

/-- Errors: each constructor stands for one of the `RuntimeError` /
`ValueError` / `OSError` raise sites of `index.py` (see the comments at the
use sites).  `fuel` marks fuel exhaustion of the fuel-indexed filesystem
operations and never occurs for sufficient fuel. -/
inductive Err where
  /-- `ValueError("Passed child is not subpath ...")` in `__check4sub`. -/
  | containment
  /-- `RuntimeError("Child wasn't found")` in `__find`. -/
  | notFound
  /-- `RuntimeError("Path ... already registered")` in `register`/`__register`. -/
  | alreadyRegistered
  /-- `RuntimeError("Category ... does not exists")` in `Index.register` /
  `Index.unregister_category`. -/
  | categoryNotFound
  /-- `RuntimeError("Category ... already exists")` in `register_category`. -/
  | duplicateCategory
  /-- `RuntimeError("Category is not empty")` in `unregister_category`. -/
  | notEmptyCategory
  /-- `RuntimeError("Member wasn't found")` in `Category.remove`. -/
  | memberNotFound
  /-- `RuntimeError("Cannot get path type ...")`: `is_directory is None` and
  the path does not exist. -/
  | ambiguousType
  /-- Python `list.remove(x)` with `x` not in the list (`ValueError`). -/
  | valueError
  /-- Python `IndexError` from out-of-range list indexing. -/
  | indexError
  /-- `OSError` from `Path.rmdir` on a non-empty directory, `Path.unlink` on a
  missing file, or `iterdir` on a missing directory, and the
  `RuntimeError("Specified path is not directory ...")` of `rm_contents`. -/
  | osError
  /-- Fuel exhaustion of the fuel-indexed filesystem recursion (never reached
  with sufficient fuel). -/
  | fuel
deriving Repr, DecidableEq

mutual
/-- A tracked entity: `FileEntity` or `DirectoryEntity` from `index.py`.
`id` models Python object identity, `parentId` the `parent` back-reference
(`none` means the `Index` root object).  A `dir` owns its `childs` list. -/
inductive Ent where
  | file (id : Nat) (path : FPath) (category : Int) (info : Option String)
      (parentId : Option Nat)
  | dir (id : Nat) (path : FPath) (category : Int) (info : Option String)
      (parentId : Option Nat) (childs : EntList)
  deriving Repr

/-- A `childs` list (insertion order = registration order). -/
inductive EntList where
  | nil
  | cons (hd : Ent) (tl : EntList)
  deriving Repr
end

/-- The entity's object identity. -/
def Ent.id : Ent → Nat
  | .file i _ _ _ _ => i
  | .dir i _ _ _ _ _ => i

/-- The entity's `path` field. -/
def Ent.path : Ent → FPath
  | .file _ p _ _ _ => p
  | .dir _ p _ _ _ _ => p

/-- The entity's `category` field (an integer index into the category table). -/
def Ent.category : Ent → Int
  | .file _ _ c _ _ => c
  | .dir _ _ c _ _ _ => c

/-- The entity's `is_directory` flag. -/
def Ent.isDirectory : Ent → Bool
  | .file _ _ _ _ _ => false
  | .dir _ _ _ _ _ _ => true

/-- The `childs` list (empty for a file). -/
def Ent.childs : Ent → EntList
  | .file _ _ _ _ _ => .nil
  | .dir _ _ _ _ _ cs => cs

/-- `set_parent`. -/
def Ent.set_parent (par : Option Nat) : Ent → Ent
  | .file i p c n _ => .file i p c n par
  | .dir i p c n _ cs => .dir i p c n par cs

/-- The entity's `parent` pointer (`none` = the `Index` root object). -/
def Ent.parentId : Ent → Option Nat
  | .file _ _ _ _ par => par
  | .dir _ _ _ _ par _ => par

/-- List concatenation on `childs` lists. -/
def EntList.append : EntList → EntList → EntList
  | .nil, l => l
  | .cons hd tl, l => .cons hd (tl.append l)

instance : Append EntList := ⟨EntList.append⟩

/-- The ordinary list of a `childs` list. -/
def EntList.toList : EntList → List Ent
  | .nil => []
  | .cons hd tl => hd :: tl.toList

/-- First element satisfying a predicate. -/
def EntList.find? (p : Ent → Bool) : EntList → Option Ent
  | .nil => none
  | .cons hd tl => if p hd then some hd else tl.find? p

/-- Whether some element satisfies a predicate. -/
def EntList.anyP (p : Ent → Bool) : EntList → Bool
  | .nil => false
  | .cons hd tl => p hd || tl.anyP p

/-- Remove the first element satisfying a predicate; `none` when no element
matches (Python `list.remove` raises there). -/
def EntList.removeFirstP (p : Ent → Bool) : EntList → Option EntList
  | .nil => none
  | .cons hd tl =>
    if p hd then some tl
    else (tl.removeFirstP p).map (.cons hd ·)

/-- `set_parent` applied to every element (the reparenting loop of
`__unregister`). -/
def EntList.setParents (par : Option Nat) : EntList → EntList
  | .nil => .nil
  | .cons hd tl => .cons (hd.set_parent par) (tl.setParents par)

/-- The immutable view of an entity that a `Category.members` entry exposes:
identity, `path` and `category` (all fixed at construction). -/
structure MemRef where
  id : Nat
  path : FPath
  category : Int
deriving Repr, DecidableEq

/-- The member-list entry for an entity. -/
def Ent.ref : Ent → MemRef
  | .file i p c _ _ => ⟨i, p, c⟩
  | .dir i p c _ _ _ => ⟨i, p, c⟩

/-- `Category`: a name, optional info, and the member list (append order). -/
structure Category where
  name : String
  info : Option String
  members : List MemRef
deriving Repr, DecidableEq

/-- `Category.add`: `self.members.append(element)`. -/
def Category.add (c : Category) (r : MemRef) : Category :=
  { c with members := c.members ++ [r] }

/-- Remove the first element of `l` satisfying `p`; `none` when no element
matches (Python raises there). -/
def removeFirst (p : α → Bool) : List α → Option (List α)
  | [] => none
  | x :: xs =>
    if p x then some xs
    else (removeFirst p xs).map (x :: ·)

/-- `Category.remove(entity)`: scans `members` for the first entry whose
`path` equals the argument's path and removes it;
`RuntimeError("Member wasn't found")` when there is none.  Note the scan is by
path, not by object identity. -/
def Category.remove (c : Category) (path : FPath) : Option Category :=
  (removeFirst (fun r => r.path == path) c.members).map
    (fun ms => { c with members := ms })

/-- `Category.elements`. -/
def Category.elements (c : Category) : Nat := c.members.length

/-- Python list indexing `l[i]` for a possibly negative `i`
(negative indices count from the end; out of range is `none`). -/
def pyGet (l : List α) (i : Int) : Option α :=
  if 0 ≤ i then l.get? i.toNat
  else if (-i).toNat ≤ l.length then l.get? (l.length - (-i).toNat)
  else none

/-- The nonnegative position that Python's `l[i]` reads, when in range. -/
def pyResolve (len : Nat) (i : Int) : Option Nat :=
  if 0 ≤ i then (if i.toNat < len then some i.toNat else none)
  else if (-i).toNat ≤ len then some (len - (-i).toNat)
  else none

/-- The `Index` object: root path, category table, root `childs`, and the
id allocator modelling Python object identity (`created` and the backing-file
handle carry no information the claims mention and are omitted). -/
structure Index where
  path : FPath
  categories : List Category
  childs : EntList
  nextId : Nat
deriving Repr

/-- A category argument: Python accepts `str` or `int`. -/
inductive CatKey where
  | str (s : String)
  | int (i : Int)

/-- `Index.find_category`: for an `int`, plain Python indexing (so negative
indices resolve from the end and are reported found, with the raw argument
echoed as the returned index); for a `str`, a linear scan returning the
position.  Returns `(found, index, category)`. -/
def Index.find_category (idx : Index) : CatKey → Bool × Int × Option Category
  | .int i =>
    match pyGet idx.categories i with
    | some c => (true, i, some c)
    | none => (false, -1, none)
  | .str s =>
    match idx.categories.findIdx? (fun c => c.name == s) with
    | some k => (true, (k : Int), idx.categories.get? k)
    | none => (false, -1, none)

/-- `Index.get_category`: plain Python list indexing into `_categories`. -/
def Index.get_category (idx : Index) (i : Int) : Option Category :=
  pyGet idx.categories i

/-- `get_root().get_category(cat).remove(path)` as one step: resolve the
category index, remove the first member with the given path, write the
category back. -/
def catsRemove (cats : List Category) (i : Int) (path : FPath) :
    Except Err (List Category) :=
  match pyResolve cats.length i with
  | none => .error .indexError
  | some k =>
    match cats.get? k with
    | none => .error .indexError
    | some c =>
      match c.remove path with
      | none => .error .memberNotFound
      | some c' => .ok (cats.set k c')

/-- `get_root().get_category(cat).add(ref)` as one step. -/
def catsAdd (cats : List Category) (i : Int) (r : MemRef) :
    Except Err (List Category) :=
  match pyResolve cats.length i with
  | none => .error .indexError
  | some k =>
    match cats.get? k with
    | none => .error .indexError
    | some c => .ok (cats.set k (c.add r))

mutual
/-- `DirectoryEntity.deepest_parent`, descent step for one child: a directory
child that strictly contains `sub` is descended into (recursing first, and
answering with itself — `(id, path, childs)` — when nothing deeper contains
`sub`); any other child yields nothing. -/
def deepestBelowEnt (sub : FPath) : Ent → Option (Nat × FPath × EntList)
  | .file _ _ _ _ _ => none
  | .dir i p _ _ _ cs =>
    if is_subpath_to sub p then
      some ((deepestBelowList sub cs).getD (i, p, cs))
    else none

/-- `deepest_parent` descent over a `childs` list: the first child directory
strictly containing `sub` wins; `none` when no child of this level contains
`sub` (the caller itself is then the deepest parent). -/
def deepestBelowList (sub : FPath) : EntList → Option (Nat × FPath × EntList)
  | .nil => none
  | .cons hd tl =>
    match deepestBelowEnt sub hd with
    | some r => some r
    | none => deepestBelowList sub tl
end

/-- `deepest_parent` started at a directory `(selfId, selfPath, childs)`:
`__check4sub` then descend. `selfId = none` denotes the `Index` root. -/
def deepest_parent (selfId : Option Nat) (selfPath : FPath)
    (childs : EntList) (sub : FPath) :
    Except Err (Option Nat × FPath × EntList) :=
  if is_subpath_to sub selfPath then
    match deepestBelowList sub childs with
    | some (i, p, cs) => .ok (some i, p, cs)
    | none => .ok (selfId, selfPath, childs)
  else .error .containment

/-- `DirectoryEntity.isregistered`: resolve the deepest parent, then an exact
path scan of its `childs`. -/
def isregistered (selfId : Option Nat) (selfPath : FPath) (childs : EntList)
    (sub : FPath) : Except Err Bool :=
  (deepest_parent selfId selfPath childs sub).map
    (fun r => r.2.2.anyP (fun c => c.path == sub))

/-- `DirectoryEntity.find`: resolve the deepest parent, then return the first
child with an exact path match; `RuntimeError("Child wasn't found")`
otherwise. -/
def findEnt (selfId : Option Nat) (selfPath : FPath) (childs : EntList)
    (sub : FPath) : Except Err Ent :=
  (deepest_parent selfId selfPath childs sub).bind
    (fun r =>
      match r.2.2.find? (fun c => c.path == sub) with
      | some e => .ok e
      | none => .error .notFound)

mutual
/-- The placement part of `DirectoryEntity.register` for one child: descend
into a directory child that strictly contains the new entity's path exactly
as `deepest_parent` does, and at the innermost such directory run
`__register`'s body: the duplicate direct-child check, `childs.append(sub)`,
`sub.set_parent`.  Returns the updated child together with the chosen
parent's id; `none` when this child does not contain the path. -/
def insertBelowEnt (sub : Ent) : Ent → Except Err (Option (Ent × Nat))
  | .file _ _ _ _ _ => .ok none
  | .dir i p c n par cs =>
    if is_subpath_to sub.path p then
      match insertBelowList sub cs with
      | .error e => .error e
      | .ok (some (cs', pid)) => .ok (some (.dir i p c n par cs', pid))
      | .ok none =>
        if cs.anyP (fun c0 => c0.path == sub.path) then
          .error .alreadyRegistered
        else
          .ok (some (.dir i p c n par
            (cs ++ .cons (sub.set_parent (some i)) .nil), i))
    else .ok none

/-- The placement descent over a `childs` list (first containing directory
wins, as in `deepest_parent`). -/
def insertBelowList (sub : Ent) : EntList → Except Err (Option (EntList × Nat))
  | .nil => .ok none
  | .cons hd tl =>
    match insertBelowEnt sub hd with
    | .error e => .error e
    | .ok (some (hd', pid)) => .ok (some (.cons hd' tl, pid))
    | .ok none =>
      match insertBelowList sub tl with
      | .error e => .error e
      | .ok (some (tl', pid)) => .ok (some (.cons hd tl', pid))
      | .ok none => .ok none
end

/-- `Index.register(path, _category, is_directory, info)`:
1. `find_category` — `RuntimeError` unless found (the raw returned index,
   which for an `int` key is the argument itself, becomes the entity's
   `category` field);
2. resolve `is_directory`, probing the filesystem (`probe path = some b`
   means the path exists and `b` tells whether it is a directory) —
   `RuntimeError` if the flag is `None` and the path does not exist;
3. `DirectoryEntity.register`: `__check4sub` against the root, the
   `isregistered` guard, then `__register` at the deepest parent
   (append to `childs`, `set_parent`, `get_category(category).add`). -/
def Index.register (probe : FPath → Option Bool) (idx : Index) (path : FPath)
    (category : CatKey) (is_directory : Option Bool) (info : Option String) :
    Except Err Index := do
  let (found, ci, _) := idx.find_category category
  if !found then .error .categoryNotFound
  else do
    let isd ←
      match is_directory with
      | some b => Except.ok b
      | none =>
        match probe path with
        | some b => Except.ok b
        | none => Except.error Err.ambiguousType
    let child : Ent :=
      if isd then .dir idx.nextId path ci info none .nil
      else .file idx.nextId path ci info none
    if !is_subpath_to path idx.path then .error .containment
    else do
      let reg ← isregistered none idx.path idx.childs path
      if reg then .error .alreadyRegistered
      else do
        let childs' ←
          match ← insertBelowList child idx.childs with
          | some (cs, _) => Except.ok cs
          | none =>
            if idx.childs.anyP (fun c0 => c0.path == path) then
              Except.error Err.alreadyRegistered
            else
              Except.ok (idx.childs ++ .cons (child.set_parent none) .nil)
        let cats' ← catsAdd idx.categories ci child.ref
        .ok { idx with childs := childs', categories := cats',
                       nextId := idx.nextId + 1 }

/-- `DirectoryEntity.__unregister`, run at the deepest parent
`(selfId, childs)` (the descent has already stopped here, so `find`'s own
`deepest_parent` resolves to this directory and reduces to a direct scan):
* no-op when `sub` is in the ignore list (warning only);
* `el = find(sub)` — first direct child with an exact path match;
* when `el` is a directory and `recursive` is false, every element of
  `el.childs` is re-parented to this directory and appended to `childs`;
* `get_category(el.category).remove(el)` (scan by path), then
  `childs.remove(el)` (Python identity, i.e. first element with `el`'s id). -/
def unregisterHere (ignore : List FPath) (recursive : Bool) (sub : FPath)
    (selfId : Option Nat) (cats : List Category) (childs : EntList) :
    Except Err (EntList × List Category) :=
  if sub ∈ ignore then .ok (childs, cats)
  else
    match childs.find? (fun c => c.path == sub) with
    | none => .error .notFound
    | some el =>
      let grown :=
        if el.isDirectory && !recursive then
          childs ++ el.childs.setParents selfId
        else childs
      match catsRemove cats el.category sub with
      | .error e => .error e
      | .ok cats' =>
        match grown.removeFirstP (fun c => c.id == el.id) with
        | none => .error .valueError
        | some childs' => .ok (childs', cats')

mutual
/-- The descent of `DirectoryEntity.unregister` for one child: into a
directory child strictly containing `sub`, exactly as `deepest_parent`,
applying `unregisterHere` at the level where no child contains `sub` any
more.  `none` when this child does not contain `sub`. -/
def unregBelowEnt (ignore : List FPath) (recursive : Bool) (sub : FPath)
    (cats : List Category) : Ent → Except Err (Option (Ent × List Category))
  | .file _ _ _ _ _ => .ok none
  | .dir i p c n par cs =>
    if is_subpath_to sub p then
      match unregBelowList ignore recursive sub cats cs with
      | .error e => .error e
      | .ok (some (cs', cats')) =>
        .ok (some (.dir i p c n par cs', cats'))
      | .ok none =>
        match unregisterHere ignore recursive sub (some i) cats cs with
        | .error e => .error e
        | .ok (cs', cats') => .ok (some (.dir i p c n par cs', cats'))
    else .ok none

/-- The unregister descent over a `childs` list (first containing directory
wins). -/
def unregBelowList (ignore : List FPath) (recursive : Bool) (sub : FPath)
    (cats : List Category) :
    EntList → Except Err (Option (EntList × List Category))
  | .nil => .ok none
  | .cons hd tl =>
    match unregBelowEnt ignore recursive sub cats hd with
    | .error e => .error e
    | .ok (some (hd', cats')) => .ok (some (.cons hd' tl, cats'))
    | .ok none =>
      match unregBelowList ignore recursive sub cats tl with
      | .error e => .error e
      | .ok (some (tl', cats')) => .ok (some (.cons hd tl', cats'))
      | .ok none => .ok none
end

/-- `DirectoryEntity.unregister(sub, recursive)` started at an arbitrary
directory `(selfId, selfPath, childs)`: `__check4sub`, descend to the deepest
parent, `__unregister` there. -/
def unregisterFrom (ignore : List FPath) (recursive : Bool)
    (selfId : Option Nat) (selfPath : FPath) (cats : List Category)
    (childs : EntList) (sub : FPath) :
    Except Err (EntList × List Category) :=
  if is_subpath_to sub selfPath then
    match unregBelowList ignore recursive sub cats childs with
    | .error e => .error e
    | .ok (some res) => .ok res
    | .ok none => unregisterHere ignore recursive sub selfId cats childs
  else .error .containment

/-- `Index.unregister` (inherited `DirectoryEntity.unregister` on the root). -/
def Index.unregister (ignore : List FPath) (idx : Index) (sub : FPath)
    (recursive : Bool) : Except Err Index :=
  (unregisterFrom ignore recursive none idx.path idx.categories idx.childs
      sub).map
    (fun r => { idx with childs := r.1, categories := r.2 })

/-- `Index.register_category(name, info)`: `RuntimeError` when
`find_category(name)` succeeds, otherwise append a fresh empty category. -/
def Index.register_category (idx : Index) (name : String)
    (info : Option String) : Except Err Index :=
  if (idx.find_category (.str name)).1 then .error .duplicateCategory
  else .ok { idx with categories := idx.categories ++ [⟨name, info, []⟩] }

/-- `_default_filename`. -/
def defaultFilename : String := ".index.json"

/-- `Index.__init__` on a fresh root (no backing file): the root directory
entity gets category `-1` and info `"Root"`; a `Category('root', ...)` object
is constructed and immediately discarded (never stored); the category table
is `[Category('default', ...)]`; finally the backing file is registered via
`self.register(dbfile, "default", False, "Index database file")`.  That
`register` call cannot fail, so the construction is exposed as the `Except`
it goes through. -/
def Index.fresh (cwd : FPath) : Except Err Index :=
  let _rootCat := Category.mk "root" (some "Root folder category") []
  let root : Index :=
    { path := cwd
      categories := [Category.mk "default" (some "Default category") []]
      childs := .nil
      nextId := 0 }
  Index.register (fun _ => none) root (cwd ++ [defaultFilename])
    (.str "default") (some false) (some "Index database file")

mutual
/-- All entities reachable from an entity (the entity itself followed by its
descendants, pre-order), projected to their member-list views. -/
def refsBelowEnt : Ent → List MemRef
  | .file i p c _ _ => [⟨i, p, c⟩]
  | .dir i p c _ _ cs => ⟨i, p, c⟩ :: refsBelowList cs

/-- All entities reachable from a `childs` list.  This is the "reachable from
the root via children lists" set of the claims; note it is not the buggy
`walk` generator (see `walkRefsList`). -/
def refsBelowList : EntList → List MemRef
  | .nil => []
  | .cons hd tl => refsBelowEnt hd ++ refsBelowList tl
end

mutual
/-- `DirectoryEntity.walk()` exactly as written, for one yielded child: every
child is yielded once, and then — when it is a directory — yielded a second
time before its subtree is walked (`yield obj; if isinstance(obj,
DirectoryEntity): yield obj; yield from obj.walk()`). -/
def walkRefsEnt : Ent → List MemRef
  | .file i p c _ _ => [⟨i, p, c⟩]
  | .dir i p c _ _ cs => ⟨i, p, c⟩ :: ⟨i, p, c⟩ :: walkRefsList cs

/-- The full `walk()` sequence of a `childs` list. -/
def walkRefsList : EntList → List MemRef
  | .nil => []
  | .cons hd tl => walkRefsEnt hd ++ walkRefsList tl
end

mutual
/-- One serialized entity record: the tagged `{type, path, category, info,
childs?}` object produced by `FileEntitySchema` / `DirectoryEntitySchema`. -/
inductive Doc where
  | dfile (path : FPath) (category : Int) (info : Option String)
  | ddir (path : FPath) (category : Int) (info : Option String)
      (childs : DocList)
  deriving Repr

/-- A list of serialized entity records. -/
inductive DocList where
  | nil
  | cons (hd : Doc) (tl : DocList)
  deriving Repr
end

/-- The serialized index document: root path, the category table as
`(name, info)` pairs (members are not embedded), and the entity records. -/
structure IndexDoc where
  path : FPath
  categories : List (String × Option String)
  childs : DocList
deriving Repr

mutual
/-- Serialization of one entity (`FileEntitySchema.dump` /
`DirectoryEntitySchema.dump`): identity and parent pointers are not
persisted. -/
def dumpEnt : Ent → Doc
  | .file _ p c n _ => .dfile p c n
  | .dir _ p c n _ cs => .ddir p c n (dumpList cs)

/-- Serialization of a `childs` list. -/
def dumpList : EntList → DocList
  | .nil => .nil
  | .cons hd tl => .cons (dumpEnt hd) (dumpList tl)
end

/-- `Index.commit`'s payload (`IndexSchema().dump(self)`). -/
def Index.dump (idx : Index) : IndexDoc :=
  { path := idx.path
    categories := idx.categories.map (fun c => (c.name, c.info))
    childs := dumpList idx.childs }

mutual
/-- Deserialization of one entity record (`FileEntitySchema.make_object` /
`DirectoryEntitySchema.make_object`): fresh objects are allocated — modelled
by stamping fresh ids from a counter — and every `parent` is initially the
root object passed down through the schema context (modelled as `none`);
`adoption` re-links parents afterwards. -/
def docToEnt (nid : Nat) : Doc → Ent × Nat
  | .dfile p c n => (.file nid p c n none, nid + 1)
  | .ddir p c n cs =>
    let r := docsToEnts (nid + 1) cs
    (.dir nid p c n none r.1, r.2)

/-- Deserialization of a list of entity records. -/
def docsToEnts (nid : Nat) : DocList → EntList × Nat
  | .nil => (.nil, nid)
  | .cons hd tl =>
    let r1 := docToEnt nid hd
    let r2 := docsToEnts r1.2 tl
    (.cons r1.1 r2.1, r2.2)
end

mutual
/-- `DirectoryEntity.adoption` for one child: its `parent` is set to the
current directory, recursively. -/
def adoptionEnt (selfId : Option Nat) : Ent → Ent
  | .file i p c n _ => .file i p c n selfId
  | .dir i p c n _ cs => .dir i p c n selfId (adoptionList (some i) cs)

/-- `adoption` over a `childs` list. -/
def adoptionList (selfId : Option Nat) : EntList → EntList
  | .nil => .nil
  | .cons hd tl => .cons (adoptionEnt selfId hd) (adoptionList selfId tl)
end

/-- The member-rebuild loop of `IndexSchema.make_object`:
`for obj in instance.walk(): instance._categories[obj.category].add(obj)`
(plain Python indexing, so a negative `category` resolves from the end and an
out-of-range one raises `IndexError`). -/
def addWalkRefs (cats : List Category) :
    List MemRef → Except Err (List Category)
  | [] => .ok cats
  | r :: rest =>
    match catsAdd cats r.category r with
    | .error e => .error e
    | .ok cats' => addWalkRefs cats' rest

/-- `IndexSchema.make_object`: rebuild the entity tree, run `adoption`, start
every category with an empty member set, then insert every entity the `walk`
generator yields. -/
def IndexSchema.make_object (d : IndexDoc) : Except Err Index :=
  let r := docsToEnts 0 d.childs
  let es := adoptionList none r.1
  let cats0 := d.categories.map (fun ci => Category.mk ci.1 ci.2 [])
  (addWalkRefs cats0 (walkRefsList es)).map
    (fun cats =>
      { path := d.path, categories := cats, childs := es, nextId := r.2 })

mutual
/-- Find the entity with the given id anywhere below one entity. -/
def findEntByIdEnt (i : Nat) : Ent → Option Ent
  | .file a p c n par =>
    if a == i then some (.file a p c n par) else none
  | .dir a p c n par cs =>
    if a == i then some (.dir a p c n par cs) else findEntByIdList i cs

/-- Find the entity with the given id anywhere in a `childs` list. -/
def findEntByIdList (i : Nat) : EntList → Option Ent
  | .nil => none
  | .cons hd tl =>
    match findEntByIdEnt i hd with
    | some r => some r
    | none => findEntByIdList i tl
end

mutual
/-- Find the directory with the given id below one entity and return its
`(path, childs)`. -/
def findDirByIdEnt (i : Nat) : Ent → Option (FPath × EntList)
  | .file _ _ _ _ _ => none
  | .dir a p _ _ _ cs =>
    if a == i then some (p, cs) else findDirByIdList i cs

/-- Find the directory with the given id in a `childs` list. -/
def findDirByIdList (i : Nat) : EntList → Option (FPath × EntList)
  | .nil => none
  | .cons hd tl =>
    match findDirByIdEnt i hd with
    | some r => some r
    | none => findDirByIdList i tl
end

mutual
/-- Replace the `childs` list of the directory with the given id (below one
entity). -/
def replaceChildsByIdEnt (i : Nat) (newCs : EntList) : Ent → Ent
  | .file a p c n par => .file a p c n par
  | .dir a p c n par cs =>
    if a == i then .dir a p c n par newCs
    else .dir a p c n par (replaceChildsByIdList i newCs cs)

/-- Replace the `childs` list of the directory with the given id. -/
def replaceChildsByIdList (i : Nat) (newCs : EntList) : EntList → EntList
  | .nil => .nil
  | .cons hd tl =>
    .cons (replaceChildsByIdEnt i newCs hd) (replaceChildsByIdList i newCs tl)
end

/-- `PathEntityProtocol.unregister_self(recursive)`: a warning-only no-op for
an ignore-listed path, otherwise `self.parent.unregister(self, recursive)`.
The stored `parent` pointer is recovered from the entity's `parentId` in the
tree; this is faithful whenever the member being unregistered is still owned
by the tree (invariant 2 of the spec), which holds in every state the claims
reach this through. -/
def unregisterSelf (ignore : List FPath) (recursive : Bool) (idx : Index)
    (r : MemRef) : Except Err Index :=
  if r.path ∈ ignore then .ok idx
  else
    match findEntByIdList r.id idx.childs with
    | none => .error .notFound
    | some e =>
      match e.parentId with
      | none => Index.unregister ignore idx r.path recursive
      | some pid =>
        match findDirByIdList pid idx.childs with
        | none => .error .notFound
        | some (ppath, pchilds) =>
          (unregisterFrom ignore recursive (some pid) ppath idx.categories
              pchilds r.path).map
            (fun res =>
              { idx with childs := replaceChildsByIdList pid res.1 idx.childs
                         categories := res.2 })

/-- One iteration of the `for instance in reversed(self.members)` loop of
`Category.unregister_members`: read `members[k]`, run
`instance.unregister_self(recursive)` (which already removes the member from
this very list via `Category.remove` unless the path is ignore-listed), then
run `self.members.remove(instance)` a second time — Python raises
`ValueError` when the instance is no longer present. -/
def unregMembersStep (ignore : List FPath) (recursive : Bool) (ci : Nat)
    (k : Nat) (idx : Index) : Except Err Index :=
  match (idx.categories.get? ci).bind (fun c => c.members.get? k) with
  | none => .error .indexError
  | some inst =>
    match unregisterSelf ignore recursive idx inst with
    | .error e => .error e
    | .ok idx' =>
      match idx'.categories.get? ci with
      | none => .error .indexError
      | some c =>
        match removeFirst (fun m => m.id == inst.id) c.members with
        | none => .error .valueError
        | some ms =>
          .ok { idx' with
                categories := idx'.categories.set ci { c with members := ms } }

/-- The reversed-iterator loop of `Category.unregister_members`: the iterator
index starts at the initial length minus one and decrements; iteration stops
as soon as the index falls outside the current (shrinking) list. -/
def unregMembersLoop (ignore : List FPath) (recursive : Bool) (ci : Nat) :
    Nat → Index → Except Err Index
  | 0, idx =>
    if 0 < ((idx.categories.get? ci).map Category.elements).getD 0 then
      unregMembersStep ignore recursive ci 0 idx
    else .ok idx
  | k + 1, idx =>
    if k + 1 < ((idx.categories.get? ci).map Category.elements).getD 0 then
      match unregMembersStep ignore recursive ci (k + 1) idx with
      | .error e => .error e
      | .ok idx' => unregMembersLoop ignore recursive ci k idx'
    else .ok idx

/-- `Category.unregister_members(recursive)` for the category at table
position `ci`. -/
def unregMembers (ignore : List FPath) (recursive : Bool) (ci : Nat)
    (idx : Index) : Except Err Index :=
  unregMembersLoop ignore recursive ci
    (((idx.categories.get? ci).map Category.elements).getD 0 - 1) idx

/-- The table position `find_category` resolves the key to (the position of
the category object the Python function returns). -/
def Index.resolve_category (idx : Index) : CatKey → Option Nat
  | .int i => pyResolve idx.categories.length i
  | .str s => idx.categories.findIdx? (fun c => c.name == s)

/-- `Index.unregister_category(_category, unregister_members, recursive)`:
`RuntimeError` when the key resolves to no category; `RuntimeError("Category
is not empty")` when the category has members and `unregister_members` is not
set; otherwise `Category.unregister_members` runs and the category entry is
removed from the table (`self._categories.remove(category)`, identity removal
at the resolved position). -/
def Index.unregister_category (ignore : List FPath) (idx : Index)
    (key : CatKey) (unregister_members : Bool) (recursive : Bool) :
    Except Err Index :=
  match idx.resolve_category key with
  | none => .error .categoryNotFound
  | some ci =>
    let cat := (idx.categories.get? ci).getD ⟨"", none, []⟩
    if cat.elements > 0 then
      if !unregister_members then .error .notEmptyCategory
      else
        match unregMembers ignore recursive ci idx with
        | .error e => .error e
        | .ok idx' =>
          .ok { idx' with categories := idx'.categories.eraseIdx ci }
    else .ok { idx with categories := idx.categories.eraseIdx ci }

mutual
/-- `DirectoryEntity.unregister_all` for one child: first recurse when it is
a directory, then (the caller) removes it from its category in every case
and keeps it only when its path is ignore-listed. -/
def unregAllEnt (ignore : List FPath) :
    Ent → List Category → Except Err (Ent × List Category)
  | .file i p c n par, cats => .ok (.file i p c n par, cats)
  | .dir i p c n par cs, cats =>
    match unregAllList ignore cs cats with
    | .error e => .error e
    | .ok (cs', cats') => .ok (.dir i p c n par cs', cats')

/-- `unregister_all` over a `childs` list: for every child, recurse into
directories, append the child to the save list when (and only when) its path
is ignore-listed, and in every case remove it from its category
(`get_category(child.category).remove(child)` — the removal happens for
ignore-listed children too); the list becomes the save list. -/
def unregAllList (ignore : List FPath) :
    EntList → List Category → Except Err (EntList × List Category)
  | .nil, cats => .ok (.nil, cats)
  | .cons hd tl, cats =>
    match unregAllEnt ignore hd cats with
    | .error e => .error e
    | .ok (hd', cats1) =>
      match catsRemove cats1 hd'.category hd'.path with
      | .error e => .error e
      | .ok cats2 =>
        match unregAllList ignore tl cats2 with
        | .error e => .error e
        | .ok (tl', cats3) =>
          .ok ((if hd'.path ∈ ignore then EntList.cons hd' tl' else tl'),
            cats3)
end

/-- A real-filesystem node: a plain file, or a directory with its entries in
`iterdir` order. -/
inductive FSNode where
  | ffile
  | fdir (entries : List (String × FSNode))
deriving Repr

/-- Whether the node is a directory. -/
def FSNode.isDir : FSNode → Bool
  | .ffile => false
  | .fdir _ => true

/-- The path of `p` relative to `base` (component-wise), when `p` lies under
`base`. -/
def relOf (base p : FPath) : Option FPath :=
  if base.isPrefixOf p then some (p.drop base.length) else none

/-- Look up the node at a relative path. -/
def fsGet (fs : FSNode) : FPath → Option FSNode
  | [] => some fs
  | n :: rest =>
    match fs with
    | .ffile => none
    | .fdir entries =>
      match entries.find? (fun en => en.1 == n) with
      | some en => fsGet en.2 rest
      | none => none

/-- Replace (`some`) or delete (`none`) the node at a relative path; a path
through a missing component leaves the tree unchanged. -/
def fsSet (fs : FSNode) : FPath → Option FSNode → FSNode
  | [], new => new.getD fs
  | n :: rest, new =>
    match fs with
    | .ffile => fs
    | .fdir entries =>
      .fdir (entries.foldr
        (fun en acc =>
          if en.1 == n then
            match rest, new with
            | [], none => acc
            | _, _ => (en.1, fsSet en.2 rest new) :: acc
          else en :: acc) [])

mutual
/-- `rm_contents(folder)` over the folder's entries, mutual with the
second-pass loop over collected subfolders: non-directory entries are
unlinked unless ignore-listed (a warning keeps those); every subdirectory is
recursed into and then `rmdir`ed — note there is no ignore-list check for
directories, and `rmdir` raises `OSError` when survivors remain inside.
Returns the surviving entries (the ignore-listed files). -/
def rmContents (ignore : List FPath) :
    Nat → FPath → List (String × FSNode) →
    Except Err (List (String × FSNode))
  | 0, _, _ => .error .fuel
  | fuel + 1, fp, entries =>
    match rmDirsLoop ignore fuel fp (entries.filter (fun en => en.2.isDir)) with
    | .error e => .error e
    | .ok _ =>
      .ok (entries.filter
        (fun en => !en.2.isDir && decide ((fp ++ [en.1]) ∈ ignore)))

/-- Second pass of `rm_contents`: `for fldr in folders: rm_contents(fldr);
fldr.rmdir()`. -/
def rmDirsLoop (ignore : List FPath) :
    Nat → FPath → List (String × FSNode) → Except Err Unit
  | 0, _, _ => .error .fuel
  | _ + 1, _, [] => .ok ()
  | fuel + 1, fp, (n, t) :: rest =>
    match t with
    | .ffile => rmDirsLoop ignore fuel fp rest
    | .fdir es =>
      match rmContents ignore fuel (fp ++ [n]) es with
      | .error e => .error e
      | .ok es' =>
        if es'.isEmpty then rmDirsLoop ignore fuel fp rest
        else .error .osError
end

/-- `rm_contents(target)` applied inside a filesystem rooted at `base`:
`RuntimeError` when the target is not an existing directory. -/
def rmContentsAt (ignore : List FPath) (fuel : Nat) (base : FPath)
    (fs : FSNode) (target : FPath) : Except Err FSNode :=
  match relOf base target with
  | none => .error .osError
  | some rel =>
    match fsGet fs rel with
    | some (.fdir es) =>
      (rmContents ignore fuel target es).map
        (fun es' => fsSet fs rel (some (.fdir es')))
    | _ => .error .osError

/-- `delete_self(unregister=False)`: for a file, `unlink(missing_ok=True)`
unless ignore-listed; for a directory, `delete_specific(RE.ALL)` (that is,
`rm_contents`) followed by `rmdir` when the directory still exists —
`OSError` when ignore-listed survivors remain inside. -/
def deleteSelfEnt (ignore : List FPath) (fuel : Nat) (base : FPath) (e : Ent)
    (fs : FSNode) : Except Err FSNode :=
  match e with
  | .file _ p _ _ _ =>
    if p ∈ ignore then .ok fs
    else
      match relOf base p with
      | none => .error .osError
      | some rel => .ok (fsSet fs rel none)
  | .dir _ p _ _ _ _ =>
    if p ∈ ignore then .ok fs
    else
      match rmContentsAt ignore fuel base fs p with
      | .error e => .error e
      | .ok fs' =>
        match relOf base p with
        | none => .error .osError
        | some rel =>
          match fsGet fs' rel with
          | some (.fdir es) =>
            if es.isEmpty then .ok (fsSet fs' rel none) else .error .osError
          | some .ffile => .error .osError
          | none => .ok fs'

/-- `__delete_registered`'s loop: skip ignore-listed children, call
`delete_self()` (with its defaults) on the others. -/
def deleteRegisteredLoop (ignore : List FPath) (fuel : Nat) (base : FPath) :
    EntList → FSNode → Except Err FSNode
  | .nil, fs => .ok fs
  | .cons c rest, fs =>
    if c.path ∈ ignore then deleteRegisteredLoop ignore fuel base rest fs
    else
      match deleteSelfEnt ignore fuel base c fs with
      | .error e => .error e
      | .ok fs' => deleteRegisteredLoop ignore fuel base rest fs'

/-- Second loop of `__delete_unregistered`: for every leftover filesystem
path, skip it when `isregistered` holds, else fully remove a directory
(`rm_contents` + `rmdir`) or `unlink()` a file (strict — a missing path
raises). -/
def delUnregLoop2 (ignore : List FPath) :
    Nat → FPath → EntList → FPath → List FPath → FSNode → Except Err FSNode
  | 0, _, _, _, _, _ => .error .fuel
  | _ + 1, _, _, _, [], fs => .ok fs
  | fuel + 1, selfPath, childs, base, p :: rest, fs =>
    match isregistered none selfPath childs p with
    | .error e => .error e
    | .ok true => delUnregLoop2 ignore fuel selfPath childs base rest fs
    | .ok false =>
      match relOf base p with
      | none => .error .osError
      | some rel =>
        match fsGet fs rel with
        | some (.fdir es) =>
          match rmContents ignore fuel p es with
          | .error e => .error e
          | .ok es' =>
            if es'.isEmpty then
              delUnregLoop2 ignore fuel selfPath childs base rest
                (fsSet fs rel none)
            else .error .osError
        | some .ffile =>
          delUnregLoop2 ignore fuel selfPath childs base rest
            (fsSet fs rel none)
        | none => .error .osError

/-- The deletion policy enum `RE`. -/
inductive RE where
  | REGISTERED
  | UNREGISTERED
  | UNREGISTERED_DEEP
  | ALL
deriving Repr, DecidableEq

mutual

/-- `DirectoryEntity.delete_specific(method, unregister)` on the directory
`(selfPath, childs)`, in a filesystem rooted at `base`:
* `ALL` = `__delete_all`: `rm_contents(self.path)`, then `unregister_all()`
  when requested;
* `REGISTERED` = `__delete_registered`: `delete_self()` on every
  non-ignore-listed child, then `unregister_all()` when requested;
* `UNREGISTERED` / `UNREGISTERED_DEEP` = `__delete_unregistered(deep)`. -/
def deleteSpecific (ignore : List FPath) :
    Nat → RE → Bool → FPath → EntList → List Category → FPath → FSNode →
    Except Err (EntList × List Category × FSNode)
  | 0, _, _, _, _, _, _, _ => .error .fuel
  | fuel + 1, method, unreg, selfPath, childs, cats, base, fs =>
    match method with
    | .ALL =>
      match rmContentsAt ignore fuel base fs selfPath with
      | .error e => .error e
      | .ok fs' =>
        if unreg then
          match unregAllList ignore childs cats with
          | .error e => .error e
          | .ok (cs, cats') => .ok (cs, cats', fs')
        else .ok (childs, cats, fs')
    | .REGISTERED =>
      match deleteRegisteredLoop ignore fuel base childs fs with
      | .error e => .error e
      | .ok fs' =>
        if unreg then
          match unregAllList ignore childs cats with
          | .error e => .error e
          | .ok (cs, cats') => .ok (cs, cats', fs')
        else .ok (childs, cats, fs')
    | .UNREGISTERED =>
      match deleteUnregistered ignore fuel false selfPath childs cats base fs
        with
      | .error e => .error e
      | .ok fs' => .ok (childs, cats, fs')
    | .UNREGISTERED_DEEP =>
      match deleteUnregistered ignore fuel true selfPath childs cats base fs
        with
      | .error e => .error e
      | .ok fs' => .ok (childs, cats, fs')

/-- `__delete_unregistered(deep)`: snapshot `cont = list(self.path.iterdir())`,
then for every tracked child directory optionally recurse with
`UNREGISTERED_DEEP` and `cont.remove(child.path)` (a `ValueError` when the
tracked path is not on disk), and finally purge what remains of `cont` that
`isregistered` does not know. -/
def deleteUnregistered (ignore : List FPath) :
    Nat → Bool → FPath → EntList → List Category → FPath → FSNode →
    Except Err FSNode
  | 0, _, _, _, _, _, _ => .error .fuel
  | fuel + 1, deep, selfPath, childs, cats, base, fs =>
    match relOf base selfPath with
    | none => .error .osError
    | some rel =>
      match fsGet fs rel with
      | some (.fdir entries) =>
        match delUnregLoop1 ignore fuel deep childs cats base
            (entries.map (fun en => selfPath ++ [en.1])) fs with
        | .error e => .error e
        | .ok (cont, fs') =>
          delUnregLoop2 ignore fuel selfPath childs base cont fs'
      | _ => .error .osError

/-- First loop of `__delete_unregistered`: over the tracked children; for a
directory child, recurse when `deep` and drop its path from `cont`. -/
def delUnregLoop1 (ignore : List FPath) :
    Nat → Bool → EntList → List Category → FPath → List FPath → FSNode →
    Except Err (List FPath × FSNode)
  | 0, _, _, _, _, _, _ => .error .fuel
  | _ + 1, _, .nil, _, _, cont, fs => .ok (cont, fs)
  | fuel + 1, deep, .cons c rest, cats, base, cont, fs =>
    match c with
    | .dir _ p _ _ _ cs =>
      match (if deep then
          match deleteSpecific ignore fuel .UNREGISTERED_DEEP false p cs cats
            base fs with
          | .error e => .error e
          | .ok r => .ok r.2.2
        else (Except.ok fs : Except Err FSNode)) with
      | .error e => .error e
      | .ok fs' =>
        match removeFirst (fun q => q == p) cont with
        | none => .error .valueError
        | some cont' =>
          delUnregLoop1 ignore fuel deep rest cats base cont' fs'
    | .file _ _ _ _ _ => delUnregLoop1 ignore fuel deep rest cats base cont fs

end

/-- `Index.delete_specific` (the inherited method applied to the root, as the
CLI `delete registered|unregistered|all` subcommands do). -/
def Index.delete_specific (ignore : List FPath) (fuel : Nat) (idx : Index)
    (method : RE) (unreg : Bool) (fs : FSNode) :
    Except Err (Index × FSNode) :=
  (deleteSpecific ignore fuel method unreg idx.path idx.childs idx.categories
      idx.path fs).map
    (fun r =>
      ({ idx with childs := r.1, categories := r.2.1 }, r.2.2))

/-! ## Helper lemmas -/

theorem is_subpath_to_append (r : FPath) (l : FPath) (h : l ≠ []) :
    is_subpath_to (r ++ l) r = true := by
  simp [is_subpath_to, List.isPrefixOf_iff_prefix, h]

theorem EntList.nil_append (l : EntList) : EntList.nil ++ l = l := rfl

theorem EntList.cons_append (hd : Ent) (tl l : EntList) :
    EntList.cons hd tl ++ l = EntList.cons hd (tl ++ l) := rfl

theorem EntList.append_assoc :
    ∀ (a b c : EntList), a ++ b ++ c = a ++ (b ++ c)
  | .nil, _, _ => rfl
  | .cons hd tl, b, c => by
    rw [EntList.cons_append, EntList.cons_append, EntList.cons_append,
      EntList.append_assoc tl b c]

theorem EntList.toList_cons (hd : Ent) (tl : EntList) :
    (EntList.cons hd tl).toList = hd :: tl.toList := rfl

theorem EntList.find?_append_cons (p : Ent → Bool) (a : Ent) (post : EntList)
    (ha : p a = true) :
    ∀ (pre : EntList), (∀ e ∈ pre.toList, p e = false) →
      (pre ++ EntList.cons a post).find? p = some a
  | .nil, _ => by simp [EntList.nil_append, EntList.find?, ha]
  | .cons hd tl, h => by
    have hx : p hd = false := h hd (by simp [EntList.toList_cons])
    rw [EntList.cons_append]
    simp only [EntList.find?, hx, Bool.false_eq_true, if_false]
    exact EntList.find?_append_cons p a post ha tl
      (fun e he => h e (by simp [EntList.toList_cons, he]))

theorem EntList.removeFirstP_append_cons (p : Ent → Bool) (a : Ent)
    (post : EntList) (ha : p a = true) :
    ∀ (pre : EntList), (∀ e ∈ pre.toList, p e = false) →
      (pre ++ EntList.cons a post).removeFirstP p = some (pre ++ post)
  | .nil, _ => by simp [EntList.nil_append, EntList.removeFirstP, ha]
  | .cons hd tl, h => by
    have hx : p hd = false := h hd (by simp [EntList.toList_cons])
    rw [EntList.cons_append, EntList.cons_append]
    simp only [EntList.removeFirstP, hx, Bool.false_eq_true, if_false]
    rw [EntList.removeFirstP_append_cons p a post ha tl
      (fun e he => h e (by simp [EntList.toList_cons, he]))]
    rfl

theorem removeFirst_mem_iff {p : α → Bool} {l l' : List α}
    (h : removeFirst p l = some l') {a : α} (hpa : p a = false) :
    a ∈ l ↔ a ∈ l' := by
  induction l generalizing l' with
  | nil => simp [removeFirst] at h
  | cons x xs ih =>
    by_cases hx : p x = true
    · simp only [removeFirst, hx, if_pos] at h
      cases h
      constructor
      · intro hm
        rcases List.mem_cons.1 hm with rfl | hm
        · rw [hpa] at hx; cases hx
        · exact hm
      · intro hm; exact List.mem_cons_of_mem _ hm
    · rw [Bool.not_eq_true] at hx
      simp only [removeFirst, hx, Bool.false_eq_true, if_false,
        Option.map_eq_some'] at h
      rcases h with ⟨xs', hxs', rfl⟩
      simp [ih hxs']

theorem unregBelowList_none {ignore : List FPath} {recursive : Bool}
    {sub : FPath} {cats : List Category} :
    ∀ (l : EntList),
      (∀ e ∈ l.toList, e.isDirectory = true →
        is_subpath_to sub e.path = false) →
      unregBelowList ignore recursive sub cats l = .ok none
  | .nil, _ => rfl
  | .cons hd tl, h => by
    have htl : unregBelowList ignore recursive sub cats tl = .ok none :=
      unregBelowList_none tl
        (fun e he => h e (by simp [EntList.toList_cons, he]))
    cases hd with
    | file i p c n par =>
      simp only [unregBelowList, unregBelowEnt, htl]
    | dir i p c n par cs =>
      have hp : is_subpath_to sub p = false := by
        simpa [Ent.path] using
          h (Ent.dir i p c n par cs) (by simp [EntList.toList_cons]) rfl
      simp only [unregBelowList, unregBelowEnt, hp, Bool.false_eq_true,
        if_false, htl]

/-! ## Claims -/

/-- Claim C8: for a registered directory entity `D` with children `x` and
`y`, none ignore-listed, `unregister(D, recursive=false)` — dispatched at
`D`'s owning parent directory `(selfId, selfPath)`, which is where the
deepest-parent descent stops — removes `D` from the parent's `childs` and
from `D`'s category's member set, and appends `x` and `y` to the former
parent's `childs` with their `parent` pointers set to it, while every
category membership of a path other than `D`'s (in particular `x`'s and
`y`'s) is preserved. -/
theorem claim_C8 (ignore : List FPath) (selfId : Option Nat) (selfPath : FPath)
    (cats cats2 : List Category) (pre post : EntList) (dI : Nat) (dP : FPath)
    (dC : Int) (dN : Option String) (dPar : Option Nat) (x y : Ent)
    (hsub : is_subpath_to dP selfPath = true)
    (hig : dP ∉ ignore)
    (hnodesc : ∀ e ∈ (pre ++ EntList.cons
        (Ent.dir dI dP dC dN dPar (EntList.cons x (EntList.cons y .nil)))
        post).toList,
      e.isDirectory = true → is_subpath_to dP e.path = false)
    (hpre : ∀ e ∈ pre.toList, e.path ≠ dP)
    (hpreId : ∀ e ∈ pre.toList, e.id ≠ dI)
    (hrem : catsRemove cats dC dP = Except.ok cats2) :
    unregisterFrom ignore false selfId selfPath cats
        (pre ++ EntList.cons
          (Ent.dir dI dP dC dN dPar (EntList.cons x (EntList.cons y .nil)))
          post) dP
      = Except.ok
          (pre ++ (post ++ EntList.cons (x.set_parent selfId)
            (EntList.cons (y.set_parent selfId) .nil)), cats2)
    ∧ ∀ (j : Nat) (m : MemRef), m.path ≠ dP →
        ((∃ c, cats.get? j = some c ∧ m ∈ c.members) ↔
         (∃ c, cats2.get? j = some c ∧ m ∈ c.members)) := by
  constructor
  · have hbelow := @unregBelowList_none ignore false dP cats _ hnodesc
    have hfind : (pre ++ EntList.cons
        (Ent.dir dI dP dC dN dPar (EntList.cons x (EntList.cons y .nil)))
        post).find? (fun c => c.path == dP)
        = some (Ent.dir dI dP dC dN dPar (EntList.cons x (EntList.cons y .nil)))
        := by
      refine EntList.find?_append_cons _ _ _ (by simp [Ent.path]) pre
        (fun e he => ?_)
      simpa using hpre e he
    have hgrown : (pre ++ EntList.cons
          (Ent.dir dI dP dC dN dPar (EntList.cons x (EntList.cons y .nil)))
          post) ++
        EntList.cons (x.set_parent selfId)
          (EntList.cons (y.set_parent selfId) .nil)
        = pre ++ EntList.cons
            (Ent.dir dI dP dC dN dPar (EntList.cons x (EntList.cons y .nil)))
            (post ++ EntList.cons (x.set_parent selfId)
              (EntList.cons (y.set_parent selfId) .nil)) := by
      rw [EntList.append_assoc, EntList.cons_append]
    have hremove : ((pre ++ EntList.cons
          (Ent.dir dI dP dC dN dPar (EntList.cons x (EntList.cons y .nil)))
          post) ++
        EntList.cons (x.set_parent selfId)
          (EntList.cons (y.set_parent selfId) .nil)).removeFirstP
          (fun c => c.id == (Ent.dir dI dP dC dN dPar
            (EntList.cons x (EntList.cons y .nil))).id)
        = some (pre ++ (post ++ EntList.cons (x.set_parent selfId)
            (EntList.cons (y.set_parent selfId) .nil))) := by
      rw [hgrown]
      refine EntList.removeFirstP_append_cons _ _ _ (by simp [Ent.id]) pre
        (fun e he => ?_)
      simpa [Ent.id] using hpreId e he
    simp only [unregisterFrom, hsub, if_true, hbelow, unregisterHere,
      if_neg hig, hfind, Ent.isDirectory, Ent.category, Ent.childs,
      Bool.not_false, Bool.and_true, EntList.setParents, hrem]
    rw [hremove]
  · intro j m hm
    unfold catsRemove at hrem
    split at hrem
    · cases hrem
    next k hk =>
      split at hrem
      · cases hrem
      next c hc =>
        split at hrem
        · cases hrem
        next c' hr =>
          cases hrem
          simp only [Category.remove, Option.map_eq_some'] at hr
          rcases hr with ⟨ms, hms, rfl⟩
          have hklen : k < cats.length := by
            by_contra hge
            rw [List.get?_eq_none.2 (Nat.le_of_not_lt hge)] at hc
            cases hc
          have hmem : m ∈ c.members ↔ m ∈ ms :=
            removeFirst_mem_iff hms (by simpa using hm)
          constructor
          · rintro ⟨c0, hc0, hmc0⟩
            by_cases hjk : j = k
            · subst hjk
              rw [hc0] at hc; cases hc
              exact ⟨_, by rw [List.get?_set_eq_of_lt _ hklen], hmem.1 hmc0⟩
            · exact ⟨c0, by
                rw [List.get?_set_ne _ _ (fun h => hjk h.symm), hc0], hmc0⟩
          · rintro ⟨c0, hc0, hmc0⟩
            by_cases hjk : j = k
            · subst hjk
              rw [List.get?_set_eq_of_lt _ hklen] at hc0
              cases hc0
              exact ⟨c, hc, hmem.2 hmc0⟩
            · rw [List.get?_set_ne _ _ (fun h => hjk h.symm)] at hc0
              exact ⟨c0, hc0, hmc0⟩

/-- Claim C8 witness: a root at `["r"]` owning the directory `D = ["r","D"]`
with the two file children `x` and `y`; non-recursive unregistration of `D`
removes `D` from the root's `childs` and from `"default"`'s members, and
reattaches `x` and `y` to the root. -/
theorem claim_C8_witness :
    unregisterFrom [] false none ["r"]
        [⟨"default", none, [⟨1, ["r", "D"], 0⟩, ⟨2, ["r", "D", "x"], 0⟩,
          ⟨3, ["r", "D", "y"], 0⟩]⟩]
        (EntList.nil ++ EntList.cons
          (Ent.dir 1 ["r", "D"] 0 none none
            (EntList.cons (Ent.file 2 ["r", "D", "x"] 0 none (some 1))
              (EntList.cons (Ent.file 3 ["r", "D", "y"] 0 none (some 1))
                .nil)))
          .nil) ["r", "D"]
      = Except.ok
          (EntList.nil ++ (EntList.nil ++ EntList.cons
            ((Ent.file 2 ["r", "D", "x"] 0 none (some 1)).set_parent none)
            (EntList.cons
              ((Ent.file 3 ["r", "D", "y"] 0 none (some 1)).set_parent none)
              .nil)),
           [⟨"default", none, [⟨2, ["r", "D", "x"], 0⟩,
             ⟨3, ["r", "D", "y"], 0⟩]⟩])
    ∧ ∀ (j : Nat) (m : MemRef), m.path ≠ ["r", "D"] →
        ((∃ c, ([⟨"default", none, [⟨1, ["r", "D"], 0⟩,
            ⟨2, ["r", "D", "x"], 0⟩, ⟨3, ["r", "D", "y"], 0⟩]⟩] :
              List Category).get? j = some c ∧ m ∈ c.members) ↔
         (∃ c, ([⟨"default", none, [⟨2, ["r", "D", "x"], 0⟩,
            ⟨3, ["r", "D", "y"], 0⟩]⟩] :
              List Category).get? j = some c ∧ m ∈ c.members)) :=
  claim_C8 [] none ["r"]
    [⟨"default", none, [⟨1, ["r", "D"], 0⟩, ⟨2, ["r", "D", "x"], 0⟩,
      ⟨3, ["r", "D", "y"], 0⟩]⟩]
    [⟨"default", none, [⟨2, ["r", "D", "x"], 0⟩, ⟨3, ["r", "D", "y"], 0⟩]⟩]
    .nil .nil 1 ["r", "D"] 0 none none
    (Ent.file 2 ["r", "D", "x"] 0 none (some 1))
    (Ent.file 3 ["r", "D", "y"] 0 none (some 1))
    (by decide) (by simp) (by decide) (by decide) (by decide) rfl

/-- Claim C9: `Index.register(p, category, ...)` with a valid category fails
for every path `p` that is not a strict descendant of the index root
(`__check4sub` raises before any mutation; when `is_directory` is `None` and
the path does not exist the even earlier type probe raises — either way the
call fails and, since every raise site precedes the first mutation, the tree
and the category table are returned unchanged, which the model expresses by
producing no output state at all). -/
theorem claim_C9 (probe : FPath → Option Bool) (idx : Index) (p : FPath)
    (key : CatKey) (is_directory : Option Bool) (info : Option String)
    (hfound : (idx.find_category key).1 = true)
    (hsub : is_subpath_to p idx.path = false) :
    ∃ e, Index.register probe idx p key is_directory info = Except.error e := by
  unfold Index.register
  rcases hfc : idx.find_category key with ⟨found, ci, copt⟩
  rw [hfc] at hfound
  simp only at hfound
  subst hfound
  cases is_directory with
  | some b =>
    refine ⟨.containment, ?_⟩
    simp only [hsub]
    rfl
  | none =>
    cases hpr : probe p with
    | some b =>
      refine ⟨.containment, ?_⟩
      simp only [hpr, hsub]
      rfl
    | none =>
      refine ⟨.ambiguousType, ?_⟩
      simp only [hpr]
      rfl

/-- Claim C9 witness: registering a path outside the root of a fresh-state
index, with the valid category `"default"`, fails. -/
theorem claim_C9_witness :
    ∃ e, Index.register (fun _ => none)
        { path := ["root"]
          categories := [⟨"default", some "Default category",
            [⟨0, ["root", ".index.json"], 0⟩]⟩]
          childs := .cons (Ent.file 0 ["root", ".index.json"] 0
            (some "Index database file") none) .nil
          nextId := 1 }
        ["elsewhere"] (.str "default") (some false) none = Except.error e :=
  claim_C9 (fun _ => none) _ ["elsewhere"] (.str "default") (some false) none
    (by decide) (by decide)

/-- Claim C10: a freshly initialized `Index` has exactly one category,
`"default"` (the `Category('root', ...)` object is constructed but never
stored), with the backing index file pre-registered under it; and
`find_category` / `get_category` on any negative in-range integer (here
`-1`, the only one) resolve by Python negative indexing to that existing
last category, reported as found with the raw negative index echoed back —
not to any reserved root pseudo-category. -/
theorem claim_C10 (cwd : FPath) :
    Index.fresh cwd = Except.ok
      { path := cwd
        categories := [⟨"default", some "Default category",
          [⟨0, cwd ++ [defaultFilename], 0⟩]⟩]
        childs := .cons (Ent.file 0 (cwd ++ [defaultFilename]) 0
          (some "Index database file") none) .nil
        nextId := 1 }
    ∧ ∀ i : Int, -1 ≤ i → i < 0 →
        Index.find_category
            { path := cwd
              categories := [⟨"default", some "Default category",
                [⟨0, cwd ++ [defaultFilename], 0⟩]⟩]
              childs := .cons (Ent.file 0 (cwd ++ [defaultFilename]) 0
                (some "Index database file") none) .nil
              nextId := 1 } (.int i)
          = (true, i, some ⟨"default", some "Default category",
              [⟨0, cwd ++ [defaultFilename], 0⟩]⟩)
        ∧ Index.get_category
            { path := cwd
              categories := [⟨"default", some "Default category",
                [⟨0, cwd ++ [defaultFilename], 0⟩]⟩]
              childs := .cons (Ent.file 0 (cwd ++ [defaultFilename]) 0
                (some "Index database file") none) .nil
              nextId := 1 } i
          = some ⟨"default", some "Default category",
              [⟨0, cwd ++ [defaultFilename], 0⟩]⟩ := by
  constructor
  · have hs : is_subpath_to (cwd ++ [defaultFilename]) cwd = true :=
      is_subpath_to_append cwd [defaultFilename] (by simp)
    simp only [Index.fresh, Index.register, Index.find_category, isregistered,
      deepest_parent, deepestBelowList, insertBelowList, EntList.anyP,
      catsAdd, pyResolve, Category.add, Ent.ref, Ent.set_parent, hs]
    rfl
  · intro i h1 h2
    have : i = -1 := by omega
    subst this
    exact ⟨rfl, rfl⟩

/-- Claim C10 witness: the fresh index at `["home"]`, probed at `-1`. -/
theorem claim_C10_witness :
    Index.fresh ["home"] = Except.ok
      { path := ["home"]
        categories := [⟨"default", some "Default category",
          [⟨0, ["home", defaultFilename], 0⟩]⟩]
        childs := .cons (Ent.file 0 ["home", defaultFilename] 0
          (some "Index database file") none) .nil
        nextId := 1 }
    ∧ Index.find_category
        { path := ["home"]
          categories := [⟨"default", some "Default category",
            [⟨0, ["home", defaultFilename], 0⟩]⟩]
          childs := .cons (Ent.file 0 ["home", defaultFilename] 0
            (some "Index database file") none) .nil
          nextId := 1 } (.int (-1))
      = (true, -1, some ⟨"default", some "Default category",
          [⟨0, ["home", defaultFilename], 0⟩]⟩) :=
  ⟨(claim_C10 ["home"]).1,
    ((claim_C10 ["home"]).2 (-1) (by decide) (by decide)).1⟩

/-- Claim C1: refuted on the code.  The four successful calls below — made
possible because `isregistered` only scans the deepest registered parent, so
registering `/root/a/x`, then the directory `/root/a`, then `/root/a/x` a
second time all succeed — leave the first `/root/a/x` entity (id 1)
reachable from the root while `unregister` removed its membership (the
path-based `Category.remove` strips the first member with that path): a
reachable entity belonging to no category's member set. -/
theorem claim_C1 :
    ((do
        let i0 ← Index.fresh ["root"]
        let i1 ← Index.register (fun _ => none) i0 ["root", "a", "x"]
          (.str "default") (some false) none
        let i2 ← Index.register (fun _ => none) i1 ["root", "a"]
          (.str "default") (some true) none
        let i3 ← Index.register (fun _ => none) i2 ["root", "a", "x"]
          (.str "default") (some false) none
        Index.unregister [] i3 ["root", "a", "x"] true) :
          Except Err Index).map
        (fun i => (refsBelowList i.childs, i.categories.map Category.members))
      = Except.ok
          ([⟨0, ["root", ".index.json"], 0⟩, ⟨1, ["root", "a", "x"], 0⟩,
            ⟨2, ["root", "a"], 0⟩],
           [[⟨0, ["root", ".index.json"], 0⟩, ⟨2, ["root", "a"], 0⟩,
             ⟨3, ["root", "a", "x"], 0⟩]]) := rfl

/-- Claim C2: refuted on the code.  `__unregister` with `recursive=True`
drops the whole subtree from the tree but never calls `unregister_all`, so
the descendant `/root/a/x` (id 2) stays in its category's member set after
`unregister(/root/a, recursive=True)` even though it is no longer reachable
from the root. -/
theorem claim_C2 :
    ((do
        let i0 ← Index.fresh ["root"]
        let i1 ← Index.register (fun _ => none) i0 ["root", "a"]
          (.str "default") (some true) none
        let i2 ← Index.register (fun _ => none) i1 ["root", "a", "x"]
          (.str "default") (some false) none
        Index.unregister [] i2 ["root", "a"] true) : Except Err Index).map
        (fun i => (refsBelowList i.childs, i.categories.map Category.members))
      = Except.ok
          ([⟨0, ["root", ".index.json"], 0⟩],
           [[⟨0, ["root", ".index.json"], 0⟩,
             ⟨2, ["root", "a", "x"], 0⟩]]) := rfl

/-- Claim C3: refuted on the code.  Serializing an index holding one
registered directory and deserializing it preserves the root path and the
tree structure (first conjunct: the original; second conjunct: the reloaded
index, with the same dumped shape), but the member-rebuild loop iterates the
`walk` generator, which yields every directory entity twice — so the
directory `/root/a` ends up in its category's member list twice instead of
exactly once. -/
theorem claim_C3 :
    ((do
        let i0 ← Index.fresh ["root"]
        Index.register (fun _ => none) i0 ["root", "a"] (.str "default")
          (some true) none) : Except Err Index).map
        (fun i1 => (i1.path, dumpList i1.childs,
          i1.categories.map (fun c => c.members.map MemRef.path)))
      = Except.ok
          (["root"],
           .cons (.dfile ["root", ".index.json"] 0
             (some "Index database file"))
             (.cons (.ddir ["root", "a"] 0 none .nil) .nil),
           [[["root", ".index.json"], ["root", "a"]]])
    ∧ ((do
        let i0 ← Index.fresh ["root"]
        let i1 ← Index.register (fun _ => none) i0 ["root", "a"]
          (.str "default") (some true) none
        IndexSchema.make_object i1.dump) : Except Err Index).map
        (fun i2 => (i2.path, dumpList i2.childs,
          i2.categories.map (fun c => c.members.map MemRef.path)))
      = Except.ok
          (["root"],
           .cons (.dfile ["root", ".index.json"] 0
             (some "Index database file"))
             (.cons (.ddir ["root", "a"] 0 none .nil) .nil),
           [[["root", ".index.json"], ["root", "a"], ["root", "a"]]]) :=
  ⟨rfl, rfl⟩

/-- Claim C4: refuted on the code.  `rm_contents` checks the ignore list
only for non-directory entries: an ignore-listed subdirectory is recursed
into and `rmdir`ed (first conjunct — `delete(ALL)` on the root removes the
ignore-listed directory `S` from the filesystem); and when an ignore-listed
file survives inside such a directory, the `rmdir` raises `OSError` and
aborts the whole operation before the non-ignored sibling is reached (second
conjunct).  The ignore-listed-file half does work (third conjunct). -/
theorem claim_C4 :
    ((Index.fresh ["r"]).bind (fun i =>
        Index.delete_specific [["r", "S"]] 100 i .ALL false
          (.fdir [(".index.json", .ffile), ("S", .fdir [])]))).map
        (fun t => t.2)
      = Except.ok (.fdir [])
    ∧ rmContents [["r", "S"], ["r", "S", "keep"]] 100 ["r"]
        [("S", .fdir [("keep", .ffile)]), ("other", .ffile)]
        = Except.error .osError
    ∧ rmContents [["r", "f"]] 100 ["r"] [("f", .ffile), ("g", .ffile)]
        = Except.ok [("f", .ffile)] :=
  ⟨rfl, rfl, rfl⟩

/-- Claim C5: refuted on the code.  With `unregister_members` unset,
unregistering the non-empty category `"c"` fails as specified
(`NonEmptyCategoryError`); but with `unregister_members` set the operation
crashes with a `ValueError`: `Category.unregister_members` runs
`instance.unregister_self(...)` — which already removes the member from the
list via `Category.remove` — and then calls `self.members.remove(instance)`
on the now-absent member. -/
theorem claim_C5 :
    ((do
        let i0 ← Index.fresh ["root"]
        let i1 ← i0.register_category "c" none
        let i2 ← Index.register (fun _ => none) i1 ["root", "f"] (.str "c")
          (some false) none
        Index.unregister_category [] i2 (.str "c") false true) :
          Except Err Index)
      = Except.error .notEmptyCategory
    ∧ ((do
        let i0 ← Index.fresh ["root"]
        let i1 ← i0.register_category "c" none
        let i2 ← Index.register (fun _ => none) i1 ["root", "f"] (.str "c")
          (some false) none
        Index.unregister_category [] i2 (.str "c") true true) :
          Except Err Index)
      = Except.error .valueError :=
  ⟨rfl, rfl⟩

/-- Claim C6: confirmed.  For the tracked directory `D = ["r","D"]` owning
the tracked subdirectory `S` (and nothing else), over a real filesystem
where `D` contains the untracked file `u` and `S` contains the untracked
file `v`: policy `UNREGISTERED` deletes `u` and leaves `v` (and `S`)
untouched, while `UNREGISTERED_DEEP` deletes both `u` and `v` (keeping the
tracked `S` itself). -/
theorem claim_C6 :
    deleteSpecific [] 100 .UNREGISTERED false ["r", "D"]
        (.cons (Ent.dir 1 ["r", "D", "S"] 0 none (some 0) .nil) .nil) []
        ["r", "D"] (.fdir [("u", .ffile), ("S", .fdir [("v", .ffile)])])
      = Except.ok
          (.cons (Ent.dir 1 ["r", "D", "S"] 0 none (some 0) .nil) .nil, [],
           .fdir [("S", .fdir [("v", .ffile)])])
    ∧ deleteSpecific [] 100 .UNREGISTERED_DEEP false ["r", "D"]
        (.cons (Ent.dir 1 ["r", "D", "S"] 0 none (some 0) .nil) .nil) []
        ["r", "D"] (.fdir [("u", .ffile), ("S", .fdir [("v", .ffile)])])
      = Except.ok
          (.cons (Ent.dir 1 ["r", "D", "S"] 0 none (some 0) .nil) .nil, [],
           .fdir [("S", .fdir [])]) :=
  ⟨rfl, rfl⟩

/-- Claim C7: confirmed.  After registering the directories `/root/a` and
`/root/a/b`, registering `/root/a/b/c` places the new entity in the `childs`
of `/root/a/b` — the deepest registered ancestor — and not in the `childs`
of `/root/a` or of the root, as the serialized shape of the resulting tree
shows. -/
theorem claim_C7 :
    ((do
        let i0 ← Index.fresh ["root"]
        let i1 ← Index.register (fun _ => none) i0 ["root", "a"]
          (.str "default") (some true) none
        let i2 ← Index.register (fun _ => none) i1 ["root", "a", "b"]
          (.str "default") (some true) none
        Index.register (fun _ => none) i2 ["root", "a", "b", "c"]
          (.str "default") (some false) none) : Except Err Index).map
        (fun i => dumpList i.childs)
      = Except.ok
          (.cons (.dfile ["root", ".index.json"] 0
            (some "Index database file"))
            (.cons (.ddir ["root", "a"] 0 none
              (.cons (.ddir ["root", "a", "b"] 0 none
                (.cons (.dfile ["root", "a", "b", "c"] 0 none) .nil)) .nil))
              .nil)) := rfl

end Indexlib
